import Mathlib

set_option maxHeartbeats 1600000

/-!
Shallow embedding of the progress-and-statistics engine of the read-bible
repository (src/database.js, src/scheduler.js, src/bot.js).

Conventions of the embedding:
* SQLite TEXT values (dates "YYYY-MM-DD", timestamps "YYYY-MM-DD HH:MM:SS")
  are Lean Strings; SQLite compares TEXT with memcmp and JavaScript compares
  strings by UTF-16 code units, which for the ASCII strings used here is the
  byte-wise lexicographic order modelled by strLe / strLt below.
* SQLite INTEGER columns and JavaScript integer arithmetic are Int;
  COUNT(*) results are Nat.  REAL columns are ℚ.
* Each table is a Lean list of rows.  The progress table is kept in reverse
  insertion order (head = most recently inserted row), so the SQL query
  ORDER BY id DESC LIMIT 1 is head?.  The other tables are kept in insertion
  order.
* Fallible storage operations take an explicit error oracle (DbErr / RecErr)
  describing whether the underlying better-sqlite3 call throws; a throwing
  statement mutates nothing (single statements are atomic, a db.transaction
  rolls back completely).
-/

namespace ReadBible

/-- Byte-wise lexicographic "less or equal" on character lists: the order in
which SQLite compares TEXT values (memcmp) and JavaScript compares the ASCII
date strings used by this program. -/
def strLeCh : List Char → List Char → Bool
  | [], _ => true
  | _ :: _, [] => false
  | a :: as, b :: bs =>
    if a.toNat < b.toNat then true
    else if b.toNat < a.toNat then false
    else strLeCh as bs

/-- Lexicographic "less or equal" on strings (models SQL `date >= x` as
`strLe x date`). -/
def strLe (a b : String) : Bool := strLeCh a.data b.data

/-- Strict lexicographic "less than" on strings (models the JavaScript
string comparisons `a < b` / `a > b`). -/
def strLt (a b : String) : Bool := !(strLe b a)

/-- Model of the JavaScript `s.split(' ')[0]` idiom used to turn a session
timestamp "YYYY-MM-DD HH:MM:SS" into its date part. -/
def firstField (s : String) : String := ⟨s.data.takeWhile (fun c => c.toNat != 32)⟩

/-- Decimal digit character. -/
def digitChar (n : Nat) : Char := Char.ofNat (48 + n)

/-- Fuel-bounded decimal rendering of a natural number (20 digits of fuel is
enough for every number occurring in the program). -/
def natToCharsAux : Nat → Nat → List Char
  | 0, _ => []
  | fuel + 1, n =>
    if n < 10 then [digitChar n]
    else natToCharsAux fuel (n / 10) ++ [digitChar (n % 10)]

/-- Model of the JavaScript number-to-string conversion `String(n)` /
template interpolation for integers. -/
def jsIntToString (n : Int) : String :=
  if n < 0 then ⟨([] ++ ['-']) ++ natToCharsAux 20 n.natAbs⟩
  else ⟨natToCharsAux 20 n.natAbs⟩

/-- Model of `String(n).padStart(2, "0")` from src/database.js
calculateMonthlyStats. -/
def jsPad2 (n : Int) : String :=
  let s := jsIntToString n
  if s.length < 2 then "0" ++ s else s

/-- Model of `x.toFixed(1)` (as re-read by parseFloat / SQLite REAL affinity)
for the nonnegative rates produced by the program: round to the nearest
multiple of 1/10, halves up. -/
def toFixed1 (q : ℚ) : ℚ := (⌊q * 10 + 1 / 2⌋ : ℚ) / 10

/-! ## Data model (the five tables of src/database.js initializeDatabase) -/

/-- One row of the progress table: a reading session. -/
structure ProgressRow where
  current_index : Int
  last_sent_date : Option String
  created_at : Option String
deriving DecidableEq, Repr

/-- One row of the completions table. -/
structure CompletionRow where
  user_id : Int
  username : Option String
  first_name : Option String
  date : String
deriving DecidableEq, Repr

/-- One row of the daily_stats table. -/
structure DailyStatRow where
  date : String
  total_members : Int
  completed_count : Int
  completion_rate : ℚ
deriving DecidableEq, Repr

/-- One row of the monthly_stats table. -/
structure MonthlyStatRow where
  year : Int
  month : Int
  total_days : Int
  reading_days : Int
  total_completions : Int
  average_rate : ℚ
deriving DecidableEq, Repr

/-- One entry of a top-participants result (src/database.js
getTopParticipants). -/
structure Participant where
  user_id : Int
  username : Option String
  first_name : Option String
  count : Nat
deriving DecidableEq, Repr

/-- One row of the overall_stats table; top_participants is stored
structurally rather than as its JSON rendering. -/
structure OverallStatRow where
  start_date : String
  end_date : String
  total_days : Nat
  total_readings : Int
  total_completions : Int
  average_rate : ℚ
  top_participants : List Participant
deriving DecidableEq, Repr

/-- The whole SQLite database.  The progress list is in reverse insertion
order (head = latest row, i.e. greatest autoincrement id). -/
structure DB where
  progress : List ProgressRow
  completions : List CompletionRow
  daily_stats : List DailyStatRow
  monthly_stats : List MonthlyStatRow
  overall_stats : List OverallStatRow
deriving DecidableEq, Repr

/-- Error oracle for a multi-statement storage operation: does the
better-sqlite3 transaction throw? -/
inductive DbErr where
  | ok
  | fail
deriving DecidableEq, Repr

/-- Error oracle for recordCompletion: no error, the duplicate-check SELECT
throws, or the INSERT throws. -/
inductive RecErr where
  | ok
  | checkFail
  | insertFail
deriving DecidableEq, Repr

/-! ## src/database.js -/

/-- getProgress (database.js:115): SELECT * FROM progress ORDER BY id DESC
LIMIT 1. -/
def getProgress (db : DB) : Option ProgressRow := db.progress.head?

/-- getCurrentIndex (database.js:122): current_index of the latest session,
0 when the progress table is empty. -/
def getCurrentIndex (db : DB) : Int :=
  match getProgress db with
  | none => 0
  | some p => p.current_index

/-- updateProgress (database.js:130): update current_index and
last_sent_date of the latest session row; no-op when no row exists. -/
def updateProgress (db : DB) (newIndex : Int) (today : String) : DB :=
  match db.progress with
  | [] => db
  | p :: rest =>
    { db with progress :=
        { p with current_index := newIndex, last_sent_date := some today } :: rest }

/-- resetProgress (database.js:144, the soft reset): INSERT a fresh progress
row; its created_at is the CURRENT_TIMESTAMP `now`. -/
def resetProgress (db : DB) (newIndex : Int) (now : String) : DB :=
  { db with progress :=
      { current_index := newIndex, last_sent_date := none, created_at := some now } :: db.progress }

/-- hardResetAllData (database.js:156): inside one transaction DELETE every
row of completions / daily_stats / monthly_stats / overall_stats / progress
and INSERT a fresh progress row; returns true on success.  On a throwing
transaction the rollback leaves the database unchanged and the catch
returns false. -/
def hardResetAllData (db : DB) (newIndex : Int) (now : String) : DbErr → DB × Bool
  | .fail => (db, false)
  | .ok =>
    ({ progress := [{ current_index := newIndex, last_sent_date := none, created_at := some now }],
       completions := [], daily_stats := [], monthly_stats := [], overall_stats := [] },
     true)

/-- Does a completion row for (userId, date) exist (the duplicate-check
SELECT of recordCompletion)? -/
def hasCompletion (db : DB) (userId : Int) (date : String) : Bool :=
  db.completions.any (fun c => c.user_id == userId && c.date == date)

/-- recordCompletion (database.js:192): insert iff no row exists for
(user_id, date); every error is caught and reported as false. -/
def recordCompletion (db : DB) (userId : Int) (username first_name : Option String)
    (date : String) : RecErr → DB × Bool
  | .checkFail => (db, false)
  | .insertFail => (db, false)
  | .ok =>
    if hasCompletion db userId date then (db, false)
    else
      ({ db with completions :=
          db.completions ++
            [{ user_id := userId, username := username, first_name := first_name, date := date }] },
       true)

/-- getCompletionCount (database.js:225): COUNT(*) of completions on a
date. -/
def getCompletionCount (db : DB) (date : String) : Nat :=
  db.completions.countP (fun c => c.date == date)

/-- Session start date used by the session-scoped queries: created_at of the
latest progress row, truncated to its date part by split(' ')[0]; none when
there is no session row or no created_at (the falsy guard in the source). -/
def sessionStartOf (db : DB) : Option String :=
  match getProgress db with
  | none => none
  | some p =>
    match p.created_at with
    | none => none
    | some ts => some (firstField ts)

/-- The completions visible to a session-scoped query: rows with
date >= session start, or all rows when no session information exists. -/
def scopedCompletions (db : DB) : List CompletionRow :=
  match sessionStartOf db with
  | none => db.completions
  | some d0 => db.completions.filter (fun c => strLe d0 c.date)

/-- One group of the GROUP BY user_id aggregation of getTopParticipants.
SQLite leaves the choice of the representative username/first_name
unspecified; the embedding takes the first matching row. -/
def topRowFor (cs : List CompletionRow) (u : Int) : Participant :=
  { user_id := u
    username := ((cs.filter (fun c => c.user_id == u)).head?).bind (fun c => c.username)
    first_name := ((cs.filter (fun c => c.user_id == u)).head?).bind (fun c => c.first_name)
    count := (cs.filter (fun c => c.user_id == u)).length }

/-- The GROUP BY user_id aggregation of getTopParticipants: one Participant
per distinct user_id of the given completion list, with COUNT(*) per
group. -/
def topRows (cs : List CompletionRow) : List Participant :=
  ((cs.map (fun c => c.user_id)).dedup).map (topRowFor cs)

/-- getTopParticipants (database.js:244): group the session-scoped
completions by user_id, count per user, ORDER BY count DESC, LIMIT.  SQLite
leaves the order of tied counts unspecified; the embedding uses a stable
sort. -/
def getTopParticipants (db : DB) (limit : Nat) : List Participant :=
  ((topRows (scopedCompletions db)).mergeSort (fun a b => Nat.ble b.count a.count)).take limit

/-- getUserCompletionCount (database.js:287): COUNT(*) of one user among
the session-scoped completions. -/
def getUserCompletionCount (db : DB) (userId : Int) : Nat :=
  match sessionStartOf db with
  | none => db.completions.countP (fun c => c.user_id == userId)
  | some d0 => db.completions.countP (fun c => c.user_id == userId && strLe d0 c.date)

/-- saveDailyStats (database.js:311): INSERT OR REPLACE keyed on the UNIQUE
date column. -/
def saveDailyStats (db : DB) (date : String) (totalMembers completedCount : Int)
    (completionRate : ℚ) : DB :=
  { db with daily_stats :=
      db.daily_stats.filter (fun s => !(s.date == date)) ++
        [{ date := date, total_members := totalMembers,
           completed_count := completedCount, completion_rate := completionRate }] }

/-- getDailyStats (database.js:336): direct lookup of one daily_stats row by
date. -/
def getDailyStats (db : DB) (date : String) : Option DailyStatRow :=
  db.daily_stats.find? (fun s => s.date == date)

/-- getAllDailyStats (database.js:374): the session-scoped daily_stats rows,
ORDER BY date. -/
def getAllDailyStats (db : DB) : List DailyStatRow :=
  match sessionStartOf db with
  | none => db.daily_stats.mergeSort (fun a b => strLe a.date b.date)
  | some d0 =>
    (db.daily_stats.filter (fun s => strLe d0 s.date)).mergeSort
      (fun a b => strLe a.date b.date)

/-- The month start string of calculateMonthlyStats:
`year + "-" + pad2 month + "-01"`. -/
def monthStartStr (year month : Int) : String :=
  jsIntToString year ++ "-" ++ jsPad2 month ++ "-01"

/-- The exclusive month end string of calculateMonthlyStats: the first day
of the following month. -/
def monthEndStr (year month : Int) : String :=
  if month = 12 then jsIntToString (year + 1) ++ "-01-01"
  else jsIntToString year ++ "-" ++ jsPad2 (month + 1) ++ "-01"

/-- Leap-year rule of the proleptic Gregorian calendar (as implemented by
the JavaScript Date object); for the nonnegative years in use Int emod
agrees with the JavaScript remainder. -/
def isLeapYear (y : Int) : Bool := (y % 4 == 0 && y % 100 != 0) || y % 400 == 0

/-- Model of `new Date(year, month, 0).getDate()` for month 1..12: the
number of days of that month. -/
def jsDaysInMonth (y m : Int) : Int :=
  if m = 2 then (if isLeapYear y then 29 else 28)
  else if m = 4 || m = 6 || m = 9 || m = 11 then 30
  else 31

/-- The object returned by calculateMonthlyStats on success. -/
structure MonthlyResult where
  reading_days : Nat
  total_days : Int
  total_completions : Int
  average_rate : ℚ
deriving DecidableEq, Repr

/-- calculateMonthlyStats (database.js:392): aggregate the daily_stats rows
with `max(monthStart, sessionStart) <= date < monthEnd` (string comparison,
exactly as the source); null when zero rows; otherwise COUNT, SUM and AVG,
the average passed through toFixed(1) unless it is falsy (0). -/
def calculateMonthlyStats (db : DB) (year month : Int) : Option MonthlyResult :=
  let startDate := monthStartStr year month
  let endDate := monthEndStr year month
  let eff :=
    match sessionStartOf db with
    | some sd => if strLt sd startDate then startDate else sd
    | none => startDate
  let rows := db.daily_stats.filter (fun s => strLe eff s.date && strLt s.date endDate)
  if rows.length = 0 then none
  else
    let avg : ℚ := (rows.map (fun s => s.completion_rate)).sum / (rows.length : ℚ)
    some { reading_days := rows.length
           total_days := jsDaysInMonth year month
           total_completions := (rows.map (fun s => s.completed_count)).sum
           average_rate := if avg = 0 then 0 else toFixed1 avg }

/-- saveMonthlyStats (database.js:456): INSERT OR REPLACE keyed on the
UNIQUE (year, month) pair. -/
def saveMonthlyStats (db : DB) (year month : Int) (stats : MonthlyResult) : DB :=
  { db with monthly_stats :=
      db.monthly_stats.filter (fun r => !(r.year == year && r.month == month)) ++
        [{ year := year, month := month, total_days := stats.total_days,
           reading_days := (stats.reading_days : Int),
           total_completions := stats.total_completions,
           average_rate := stats.average_rate }] }

/-- getMonthlyStats (database.js:484): direct lookup of one monthly_stats
row by (year, month). -/
def getMonthlyStats (db : DB) (year month : Int) : Option MonthlyStatRow :=
  db.monthly_stats.find? (fun r => r.year == year && r.month == month)

/-- saveOverallStats (database.js:502): a plain INSERT, appending one row. -/
def saveOverallStats (db : DB) (row : OverallStatRow) : DB :=
  { db with overall_stats := db.overall_stats ++ [row] }

/-- getLatestOverallStats (database.js:531): SELECT ... ORDER BY id DESC
LIMIT 1, i.e. the most recently inserted overall_stats row. -/
def getLatestOverallStats (db : DB) : Option OverallStatRow :=
  db.overall_stats.getLast?

/-! ## src/scheduler.js -/

/-- The part of the runtime configuration the delivery job reads. -/
structure SchedulerConfig where
  startDate : Option String
deriving DecidableEq, Repr

/-- The body of the daily delivery job after the campaign start-date gate
(scheduler.js:64-106).  `deliveryOk` is true when the image download and the
sendPhoto call both succeed; a failure of either aborts the tick before
updateProgress.  The returned Bool says whether the one-shot overall-stats
callback was scheduled (nextIndex == totalCount). -/
def dailyReadingFireBody (db : DB) (today : String) (totalCount : Int)
    (deliveryOk : Bool) : DB × Bool :=
  let currentIndex := getCurrentIndex db
  let nextIndex := currentIndex + 1
  if totalCount ≤ currentIndex then (db, false)
  else if deliveryOk then (updateProgress db nextIndex today, nextIndex == totalCount)
  else (db, false)

/-- One fire of the daily delivery job (scheduler.js:47-109): when a
campaign start date is configured and today (configured timezone) precedes
it, do nothing; otherwise run the body. -/
def dailyReadingFire (db : DB) (cfg : SchedulerConfig) (today : String)
    (totalCount : Int) (deliveryOk : Bool) : DB × Bool :=
  match cfg.startDate with
  | some sd =>
    if strLt today sd then (db, false)
    else dailyReadingFireBody db today totalCount deliveryOk
  | none => dailyReadingFireBody db today totalCount deliveryOk

/-- One fire of the daily report job (scheduler.js:131-173).
memberCountResult is the getChatMemberCount call: some n on success (the
code then subtracts the bot), none when it throws (the catch degrades to
totalMembers = 0). -/
def dailyReportFire (db : DB) (today : String) (memberCountResult : Option Int) : DB :=
  let totalMembers : Int :=
    match memberCountResult with
    | some n => n - 1
    | none => 0
  let completedCount : Int := (getCompletionCount db today : Int)
  let completionRate : ℚ :=
    if 0 < totalMembers then toFixed1 ((completedCount : ℚ) / (totalMembers : ℚ) * 100)
    else 0
  saveDailyStats db today totalMembers completedCount completionRate

/-- A calendar date as decomposed by the JavaScript Date accessors
(month 1..12 after the getMonth() + 1 adjustment). -/
structure SimpleDate where
  year : Int
  month : Int
  day : Int
deriving DecidableEq, Repr

/-- Model of `d.setDate(d.getDate() + 1)` on a valid date: the next calendar
day. -/
def jsTomorrow (d : SimpleDate) : SimpleDate :=
  if d.day < jsDaysInMonth d.year d.month then ⟨d.year, d.month, d.day + 1⟩
  else if d.month = 12 then ⟨d.year + 1, 1, 1⟩
  else ⟨d.year, d.month + 1, 1⟩

/-- The guarded body of the monthly report job (scheduler.js:200-227):
compute the month statistics for the current process-local year/month and
upsert them when present. -/
def monthlyReportBody (db : DB) (today : SimpleDate) : DB :=
  match calculateMonthlyStats db today.year today.month with
  | none => db
  | some stats => saveMonthlyStats db today.year today.month stats

/-- One candidate fire of the monthly report job (scheduler.js:185-237).
The cron expression "55 23 28-31 * *" with the configured timezone fires on
days 28-31 of cfgToday (the date in the configured timezone); the body then
re-checks with `new Date()` — the date procToday in the timezone of the
process — whether tomorrow is the 1st.  The returned Bool says whether the
body ran. -/
def monthlyReportFire (db : DB) (cfgToday procToday : SimpleDate) : DB × Bool :=
  if 28 ≤ cfgToday.day ∧ cfgToday.day ≤ 31 then
    if (jsTomorrow procToday).day = 1 then (monthlyReportBody db procToday, true)
    else (db, false)
  else (db, false)

/-- generateAndSendOverallStats (scheduler.js:242-306).  `ok` is true when
the steps preceding the DB write (getTotalImageCount, sendMessage) succeed;
a throw there is caught before saveOverallStats runs.  Reading created_at of
a missing progress row also throws, leaving the database unchanged. -/
def generateAndSendOverallStats (db : DB) (today : String) (totalReadings : Int)
    (ok : Bool) : DB :=
  if !ok then db
  else
    match getProgress db with
    | none => db
    | some p =>
      let startDate := p.created_at.getD today
      let allStats := getAllDailyStats db
      let totalDays := allStats.length
      let totalCompletions := (allStats.map (fun s => s.completed_count)).sum
      let averageRate : ℚ :=
        if 0 < totalDays then
          toFixed1 ((allStats.map (fun s => s.completion_rate)).sum / (totalDays : ℚ))
        else 0
      saveOverallStats db
        { start_date := startDate, end_date := today, total_days := totalDays,
          total_readings := totalReadings, total_completions := totalCompletions,
          average_rate := averageRate, top_participants := getTopParticipants db 5 }

/-! ## src/bot.js -/

/-- The skip command (bot.js:348): updateProgress(currentIndex + 1). -/
def skipCommand (db : DB) (today : String) : DB :=
  updateProgress db (getCurrentIndex db + 1) today

/-- The progress write of the setstart command (bot.js:461-465): after
validating startIndex >= 0 it calls updateProgress(startIndex) with the
user-chosen index. -/
def setstartIndexUpdate (db : DB) (startIndex : Int) (today : String) : DB :=
  updateProgress db startIndex today

/-- Every database-mutating operation of the program, for stating
reachability invariants over sequential executions. -/
inductive Op where
  | record (userId : Int) (username first_name : Option String) (date : String) (e : RecErr)
  | skipCmd (today : String)
  | setstart (startIndex : Int) (today : String)
  | deliveryFire (cfg : SchedulerConfig) (today : String) (totalCount : Int) (deliveryOk : Bool)
  | dailyReport (today : String) (memberCountResult : Option Int)
  | monthlyReport (cfgToday procToday : SimpleDate)
  | overallStats (today : String) (totalReadings : Int) (ok : Bool)
  | softReset (newIndex : Int) (now : String)
  | hardReset (newIndex : Int) (now : String) (e : DbErr)

/-- Apply one operation to the database. -/
def applyOp (db : DB) : Op → DB
  | .record u un fn d e => (recordCompletion db u un fn d e).1
  | .skipCmd today => skipCommand db today
  | .setstart k today => setstartIndexUpdate db k today
  | .deliveryFire cfg today total ok => (dailyReadingFire db cfg today total ok).1
  | .dailyReport today mc => dailyReportFire db today mc
  | .monthlyReport c p => (monthlyReportFire db c p).1
  | .overallStats today tr ok => generateAndSendOverallStats db today tr ok
  | .softReset k now => resetProgress db k now
  | .hardReset k now e => (hardResetAllData db k now e).1

/-- Apply a sequence of operations left to right. -/
def applyOps (db : DB) (ops : List Op) : DB := ops.foldl applyOp db

/-! ## Derived definitions and concrete witness databases -/

/-- Number of completion rows for one (user_id, date) pair. -/
def pairCount (db : DB) (u : Int) (d : String) : Nat :=
  db.completions.countP (fun c => c.user_id == u && c.date == d)

/-- The ledger-uniqueness invariant: at most one completion row per
(user_id, date) pair. -/
def Dedup (db : DB) : Prop := ∀ u d, pairCount db u d ≤ 1

/-- The empty database (the state right after a hard reset of the ledger,
before any completion is recorded). -/
def emptyDB : DB :=
  { progress := [], completions := [], daily_stats := [], monthly_stats := [],
    overall_stats := [] }

/-- Witness database with one existing completion row. -/
def dbDup : DB :=
  { progress := [],
    completions := [{ user_id := 7, username := none, first_name := none, date := "2024-06-01" }],
    daily_stats := [], monthly_stats := [], overall_stats := [] }

/-- The non-reset operations other than the setstart progress write. -/
def IndexMonotoneOp : Op → Prop
  | .setstart _ _ => False
  | .softReset _ _ => False
  | .hardReset _ _ _ => False
  | _ => True

/-- Witness database for C8 with current index 5. -/
def dbIdx5 : DB :=
  { progress := [{ current_index := 5, last_sent_date := none,
                   created_at := some "2025-01-01 05:00:00" }],
    completions := [], daily_stats := [], monthly_stats := [], overall_stats := [] }

/-- Witness database for C4 with current index 4 (the spec scenario with
totalContentCount = 5). -/
def dbIdx4 : DB :=
  { progress := [{ current_index := 4, last_sent_date := none,
                   created_at := some "2025-01-01 05:00:00" }],
    completions := [], daily_stats := [], monthly_stats := [], overall_stats := [] }

/-! ## Aggregation view of calculateMonthlyStats, shared by C1 and C5 -/

/-- The effective start date of calculateMonthlyStats: the later (string
comparison) of the month start and the session start. -/
def effStart (sd : String) (y m : Int) : String :=
  if strLt sd (monthStartStr y m) then monthStartStr y m else sd

/-- The daily_stats rows aggregated by calculateMonthlyStats for a session
started at sd: dates in [max(monthStart, sessionStart), monthEnd). -/
def monthlyRows (db : DB) (sd : String) (y m : Int) : List DailyStatRow :=
  db.daily_stats.filter (fun s => strLe (effStart sd y m) s.date && strLt s.date (monthEndStr y m))

/-- The aggregation step of calculateMonthlyStats as a function of the
selected rows. -/
def monthlyAgg (y m : Int) (rows : List DailyStatRow) : Option MonthlyResult :=
  if rows.length = 0 then none
  else
    some { reading_days := rows.length
           total_days := jsDaysInMonth y m
           total_completions := (rows.map (fun s => s.completed_count)).sum
           average_rate :=
             if ((rows.map (fun s => s.completion_rate)).sum / (rows.length : ℚ)) = 0 then 0
             else toFixed1 ((rows.map (fun s => s.completion_rate)).sum / (rows.length : ℚ)) }

/-- Witness database for C5/C6/C7: one session started 2024-06-01 and three
daily rows with completion rates 0, 0 and 1 percent. -/
def dbJune : DB :=
  { progress := [{ current_index := 3, last_sent_date := some "2024-06-04",
                   created_at := some "2024-06-01 00:00:00" }],
    completions := [],
    daily_stats :=
      [{ date := "2024-06-02", total_members := 5, completed_count := 0, completion_rate := 0 },
       { date := "2024-06-03", total_members := 5, completed_count := 0, completion_rate := 0 },
       { date := "2024-06-04", total_members := 5, completed_count := 1, completion_rate := 1 }],
    monthly_stats := [], overall_stats := [] }

/-- Witness database with three distinct users completing on 2024-06-01
(the spec scenario). -/
def dbThree : DB :=
  { progress := [{ current_index := 0, last_sent_date := none,
                   created_at := some "2024-06-01 00:00:00" }],
    completions :=
      [{ user_id := 1, username := none, first_name := none, date := "2024-06-01" },
       { user_id := 2, username := none, first_name := none, date := "2024-06-01" },
       { user_id := 3, username := none, first_name := none, date := "2024-06-01" }],
    daily_stats := [], monthly_stats := [], overall_stats := [] }

/-- Witness database with a single completion on 2024-06-01. -/
def dbOne : DB :=
  { progress := [{ current_index := 0, last_sent_date := none,
                   created_at := some "2024-06-01 00:00:00" }],
    completions :=
      [{ user_id := 1, username := none, first_name := none, date := "2024-06-01" }],
    daily_stats := [], monthly_stats := [], overall_stats := [] }

/-! ## Order lemmas for the byte-wise string comparison -/

theorem strLeCh_refl (l : List Char) : strLeCh l l = true := by
  induction l with
  | nil => rfl
  | cons a as ih => simp [strLeCh, ih]

theorem strLeCh_total (a b : List Char) : strLeCh a b = true ∨ strLeCh b a = true := by
  induction a generalizing b with
  | nil => left; rfl
  | cons x xs ih =>
    cases b with
    | nil => right; rfl
    | cons y ys =>
      by_cases h1 : x.toNat < y.toNat
      · left; simp [strLeCh, h1]
      · by_cases h2 : y.toNat < x.toNat
        · right; simp [strLeCh, h2]
        · rcases ih ys with h | h
          · left; simp [strLeCh, h1, h2, h]
          · right; simp [strLeCh, h1, h2, h]

theorem strLeCh_trans :
    ∀ {a b c : List Char}, strLeCh a b = true → strLeCh b c = true → strLeCh a c = true := by
  intro a
  induction a with
  | nil => intro b c _ _; rfl
  | cons x xs ih =>
    intro b c hab hbc
    cases b with
    | nil => simp [strLeCh] at hab
    | cons y ys =>
      cases c with
      | nil => simp [strLeCh] at hbc
      | cons z zs =>
        simp only [strLeCh] at hab hbc ⊢
        by_cases hxy : x.toNat < y.toNat
        · by_cases hyz : y.toNat < z.toNat
          · have : x.toNat < z.toNat := by omega
            simp [this]
          · simp only [hyz, if_neg, if_false] at hbc
            by_cases hzy : z.toNat < y.toNat
            · simp [hzy] at hbc
            · have : x.toNat < z.toNat := by omega
              simp [this]
        · simp only [hxy, if_neg, if_false] at hab
          by_cases hyx : y.toNat < x.toNat
          · simp [hyx] at hab
          · by_cases hyz : y.toNat < z.toNat
            · have : x.toNat < z.toNat := by omega
              simp [this]
            · simp only [hyz, if_neg, if_false] at hbc
              by_cases hzy : z.toNat < y.toNat
              · simp [hzy] at hbc
              · have hxz : ¬ x.toNat < z.toNat := by omega
                have hzx : ¬ z.toNat < x.toNat := by omega
                rw [if_neg hyx] at hab
                rw [if_neg hzy] at hbc
                simp [hxz, hzx, ih hab hbc]

theorem strLe_refl (a : String) : strLe a a = true := strLeCh_refl a.data

theorem strLe_total (a b : String) : strLe a b = true ∨ strLe b a = true :=
  strLeCh_total a.data b.data

theorem strLe_trans {a b c : String} (h1 : strLe a b = true) (h2 : strLe b c = true) :
    strLe a c = true := strLeCh_trans h1 h2

theorem strLe_of_not_strLe {a b : String} (h : strLe a b = false) : strLe b a = true := by
  rcases strLe_total a b with h1 | h1
  · rw [h1] at h; cases h
  · exact h1

theorem strLe_of_strLt {a b : String} (h : strLt a b = true) : strLe a b = true := by
  unfold strLt at h
  rcases strLe_total a b with h1 | h1
  · exact h1
  · rw [h1] at h; cases h

theorem strLt_trans_strLe {a b c : String} (h1 : strLe a b = true) (h2 : strLt b c = true) :
    strLt a c = true := by
  unfold strLt at h2 ⊢
  by_contra h
  simp only [Bool.not_eq_true, Bool.not_eq_eq_eq_not, Bool.not_true, Bool.not_eq_false] at h h2
  exact absurd (strLe_trans h h1) (by simp [h2])

/-! ## Field-preservation lemmas for the database operations -/

theorem updateProgress_completions (db : DB) (k : Int) (t : String) :
    (updateProgress db k t).completions = db.completions := by
  unfold updateProgress
  rcases db with ⟨progress, completions, d, m, o⟩
  cases progress <;> rfl

theorem updateProgress_daily (db : DB) (k : Int) (t : String) :
    (updateProgress db k t).daily_stats = db.daily_stats := by
  unfold updateProgress
  rcases db with ⟨progress, completions, d, m, o⟩
  cases progress <;> rfl

theorem updateProgress_monthly (db : DB) (k : Int) (t : String) :
    (updateProgress db k t).monthly_stats = db.monthly_stats := by
  unfold updateProgress
  rcases db with ⟨progress, completions, d, m, o⟩
  cases progress <;> rfl

theorem updateProgress_overall (db : DB) (k : Int) (t : String) :
    (updateProgress db k t).overall_stats = db.overall_stats := by
  unfold updateProgress
  rcases db with ⟨progress, completions, d, m, o⟩
  cases progress <;> rfl

theorem updateProgress_of_nil (db : DB) (k : Int) (t : String) (h : db.progress = []) :
    updateProgress db k t = db := by
  unfold updateProgress
  rw [h]

theorem getCurrentIndex_updateProgress (db : DB) (k : Int) (t : String)
    (h : db.progress ≠ []) : getCurrentIndex (updateProgress db k t) = k := by
  unfold getCurrentIndex getProgress updateProgress
  rcases db with ⟨progress, completions, d, m, o⟩
  cases progress with
  | nil => exact absurd rfl h
  | cons p rest => rfl

theorem getCurrentIndex_updateProgress_self (db : DB) (k : Int) (t : String) :
    getCurrentIndex (updateProgress db k t) = k ∨ updateProgress db k t = db := by
  by_cases h : db.progress = []
  · right; exact updateProgress_of_nil db k t h
  · left; exact getCurrentIndex_updateProgress db k t h

theorem recordCompletion_progress (db : DB) (u : Int) (un fn : Option String)
    (d : String) (e : RecErr) : (recordCompletion db u un fn d e).1.progress = db.progress := by
  cases e with
  | checkFail => rfl
  | insertFail => rfl
  | ok =>
    unfold recordCompletion
    by_cases h : hasCompletion db u d <;> simp [h]

theorem recordCompletion_daily (db : DB) (u : Int) (un fn : Option String)
    (d : String) (e : RecErr) :
    (recordCompletion db u un fn d e).1.daily_stats = db.daily_stats := by
  cases e with
  | checkFail => rfl
  | insertFail => rfl
  | ok =>
    unfold recordCompletion
    by_cases h : hasCompletion db u d <;> simp [h]

theorem saveDailyStats_progress (db : DB) (d : String) (tm cc : Int) (r : ℚ) :
    (saveDailyStats db d tm cc r).progress = db.progress := rfl

theorem saveDailyStats_completions (db : DB) (d : String) (tm cc : Int) (r : ℚ) :
    (saveDailyStats db d tm cc r).completions = db.completions := rfl

theorem saveMonthlyStats_progress (db : DB) (y m : Int) (s : MonthlyResult) :
    (saveMonthlyStats db y m s).progress = db.progress := rfl

theorem saveMonthlyStats_completions (db : DB) (y m : Int) (s : MonthlyResult) :
    (saveMonthlyStats db y m s).completions = db.completions := rfl

theorem saveOverallStats_progress (db : DB) (row : OverallStatRow) :
    (saveOverallStats db row).progress = db.progress := rfl

theorem saveOverallStats_completions (db : DB) (row : OverallStatRow) :
    (saveOverallStats db row).completions = db.completions := rfl

theorem monthlyReportBody_progress (db : DB) (d : SimpleDate) :
    (monthlyReportBody db d).progress = db.progress := by
  unfold monthlyReportBody
  cases calculateMonthlyStats db d.year d.month with
  | none => rfl
  | some s => exact saveMonthlyStats_progress db d.year d.month s

theorem monthlyReportBody_completions (db : DB) (d : SimpleDate) :
    (monthlyReportBody db d).completions = db.completions := by
  unfold monthlyReportBody
  cases calculateMonthlyStats db d.year d.month with
  | none => rfl
  | some s => exact saveMonthlyStats_completions db d.year d.month s

theorem monthlyReportFire_progress (db : DB) (c p : SimpleDate) :
    (monthlyReportFire db c p).1.progress = db.progress := by
  unfold monthlyReportFire
  by_cases h : 28 ≤ c.day ∧ c.day ≤ 31
  · simp only [h, if_true]
    by_cases h2 : (jsTomorrow p).day = 1
    · simp [h2, monthlyReportBody_progress]
    · simp [h2]
  · simp [h]

theorem monthlyReportFire_completions (db : DB) (c p : SimpleDate) :
    (monthlyReportFire db c p).1.completions = db.completions := by
  unfold monthlyReportFire
  by_cases h : 28 ≤ c.day ∧ c.day ≤ 31
  · simp only [h, if_true]
    by_cases h2 : (jsTomorrow p).day = 1
    · simp [h2, monthlyReportBody_completions]
    · simp [h2]
  · simp [h]

theorem generateAndSendOverallStats_progress (db : DB) (t : String) (tr : Int) (ok : Bool) :
    (generateAndSendOverallStats db t tr ok).progress = db.progress := by
  unfold generateAndSendOverallStats
  cases ok with
  | false => rfl
  | true =>
    cases getProgress db with
    | none => rfl
    | some p => rfl

theorem generateAndSendOverallStats_completions (db : DB) (t : String) (tr : Int) (ok : Bool) :
    (generateAndSendOverallStats db t tr ok).completions = db.completions := by
  unfold generateAndSendOverallStats
  cases ok with
  | false => rfl
  | true =>
    cases getProgress db with
    | none => rfl
    | some p => rfl

theorem dailyReportFire_progress (db : DB) (t : String) (mc : Option Int) :
    (dailyReportFire db t mc).progress = db.progress := by
  unfold dailyReportFire
  exact saveDailyStats_progress ..

theorem dailyReportFire_completions (db : DB) (t : String) (mc : Option Int) :
    (dailyReportFire db t mc).completions = db.completions := by
  unfold dailyReportFire
  exact saveDailyStats_completions ..

theorem getCurrentIndex_of_progress_eq {db db2 : DB} (h : db2.progress = db.progress) :
    getCurrentIndex db2 = getCurrentIndex db := by
  unfold getCurrentIndex getProgress
  rw [h]

theorem sessionStartOf_eq {db : DB} {p : ProgressRow} {ts : String}
    (hp : getProgress db = some p) (hts : p.created_at = some ts) :
    sessionStartOf db = some (firstField ts) := by
  simp only [sessionStartOf, hp, hts]

theorem getAllDailyStats_eq {db : DB} {d0 : String} (h : sessionStartOf db = some d0) :
    getAllDailyStats db
      = (db.daily_stats.filter (fun s => strLe d0 s.date)).mergeSort
          (fun a b => strLe a.date b.date) := by
  unfold getAllDailyStats
  rw [h]

/-! ## The completion-ledger uniqueness invariant -/

theorem dedup_of_completions_eq {db db2 : DB} (h : db2.completions = db.completions)
    (hD : Dedup db) : Dedup db2 := by
  intro u d
  unfold pairCount
  rw [h]
  exact hD u d

theorem pairCount_eq_zero_of_not_has (db : DB) (u : Int) (d : String)
    (h : hasCompletion db u d = false) : pairCount db u d = 0 := by
  unfold hasCompletion at h
  unfold pairCount
  rw [List.countP_eq_zero]
  intro c hc
  rw [List.any_eq_false] at h
  exact h c hc

theorem recordCompletion_insert {db : DB} {u : Int} {un fn : Option String} {d : String}
    (h : hasCompletion db u d = false) :
    recordCompletion db u un fn d RecErr.ok =
      ({ db with completions :=
          db.completions ++
            [{ user_id := u, username := un, first_name := fn, date := d }] }, true) := by
  unfold recordCompletion
  simp [h]

theorem recordCompletion_dup {db : DB} {u : Int} {un fn : Option String} {d : String}
    (h : hasCompletion db u d = true) :
    recordCompletion db u un fn d RecErr.ok = (db, false) := by
  unfold recordCompletion
  simp [h]

theorem hasCompletion_after_insert (db : DB) (u : Int) (un fn : Option String) (d : String) :
    hasCompletion
      { db with completions :=
          db.completions ++
            [{ user_id := u, username := un, first_name := fn, date := d }] } u d = true := by
  unfold hasCompletion
  simp

theorem pairCount_after_insert {db : DB} {u : Int} {un fn : Option String} {d : String}
    (h : hasCompletion db u d = false) :
    pairCount
      { db with completions :=
          db.completions ++
            [{ user_id := u, username := un, first_name := fn, date := d }] } u d = 1 := by
  unfold pairCount
  rw [List.countP_append]
  have h0 := pairCount_eq_zero_of_not_has db u d h
  unfold pairCount at h0
  rw [h0]
  simp

theorem dedup_applyOp (db : DB) (op : Op) (hD : Dedup db) : Dedup (applyOp db op) := by
  cases op with
  | record u un fn d e =>
    cases e with
    | checkFail => exact hD
    | insertFail => exact hD
    | ok =>
      by_cases hc : hasCompletion db u d
      · exact dedup_of_completions_eq
          (by show (recordCompletion db u un fn d RecErr.ok).1.completions = _
              rw [recordCompletion_dup hc]) hD
      · have hrw : (applyOp db (Op.record u un fn d RecErr.ok)) =
            { db with completions :=
                db.completions ++
                  [{ user_id := u, username := un, first_name := fn, date := d }] } := by
          show (recordCompletion db u un fn d RecErr.ok).1 = _
          rw [recordCompletion_insert (by simpa using hc)]
        intro u2 d2
        rw [hrw]
        unfold pairCount
        rw [List.countP_append]
        by_cases hud : u = u2 ∧ d = d2
        · have h0 := pairCount_eq_zero_of_not_has db u2 d2
            (by rw [← hud.1, ← hud.2]; simpa using hc)
          unfold pairCount at h0
          rw [h0]
          simp only [Nat.zero_add]
          exact le_trans (List.countP_le_length _) (by simp)
        · have : ((fun c : CompletionRow => c.user_id == u2 && c.date == d2)
              { user_id := u, username := un, first_name := fn, date := d }) = false := by
            simp only [Bool.and_eq_false_iff, beq_eq_false_iff_ne, ne_eq]
            by_cases h1 : u = u2
            · right; intro h2; exact hud ⟨h1, h2⟩
            · left; exact h1
          simp only [List.countP_cons, List.countP_nil, this]
          simpa using hD u2 d2
  | skipCmd t =>
    exact dedup_of_completions_eq (by unfold applyOp skipCommand; exact updateProgress_completions ..) hD
  | setstart k t =>
    exact dedup_of_completions_eq (by unfold applyOp setstartIndexUpdate; exact updateProgress_completions ..) hD
  | deliveryFire cfg t total ok =>
    refine dedup_of_completions_eq ?_ hD
    show (dailyReadingFire db cfg t total ok).1.completions = db.completions
    unfold dailyReadingFire dailyReadingFireBody
    cases cfg.startDate with
    | none =>
      by_cases h1 : total ≤ getCurrentIndex db
      · simp [h1]
      · cases ok with
        | true => simp [h1, updateProgress_completions]
        | false => simp [h1]
    | some sd =>
      by_cases h0 : strLt t sd = true
      · simp [h0]
      · by_cases h1 : total ≤ getCurrentIndex db
        · simp [h0, h1]
        · cases ok with
          | true => simp [h0, h1, updateProgress_completions]
          | false => simp [h0, h1]
  | dailyReport t mc =>
    exact dedup_of_completions_eq (dailyReportFire_completions ..) hD
  | monthlyReport c p =>
    exact dedup_of_completions_eq (monthlyReportFire_completions ..) hD
  | overallStats t tr ok =>
    exact dedup_of_completions_eq (generateAndSendOverallStats_completions ..) hD
  | softReset k now =>
    exact dedup_of_completions_eq (by show (resetProgress db k now).completions = _; rfl) hD
  | hardReset k now e =>
    cases e with
    | fail => exact hD
    | ok =>
      intro u d
      show ((hardResetAllData db k now DbErr.ok).1.completions).countP _ ≤ 1
      simp [hardResetAllData]

theorem dedup_applyOps (db : DB) (ops : List Op) (hD : Dedup db) : Dedup (applyOps db ops) := by
  induction ops generalizing db with
  | nil => exact hD
  | cons op rest ih =>
    show Dedup (applyOps (applyOp db op) rest)
    exact ih (applyOp db op) (dedup_applyOp db op hD)

theorem dedup_emptyDB : Dedup emptyDB := by
  intro u d
  simp [pairCount, emptyDB]

/-! ## Claim theorems -/

/-- C3: after a successful hardReset(k) every statistics table and the
completion ledger are empty and the active session index is k; the
transaction is all-or-nothing, a failing hard reset leaves the database
unchanged and reports false to the caller. -/
theorem hardReset_all_or_nothing (db : DB) (k : Int) (now : String) :
    (hardResetAllData db k now DbErr.ok).2 = true
    ∧ (hardResetAllData db k now DbErr.ok).1.completions = []
    ∧ (hardResetAllData db k now DbErr.ok).1.daily_stats = []
    ∧ (hardResetAllData db k now DbErr.ok).1.monthly_stats = []
    ∧ (hardResetAllData db k now DbErr.ok).1.overall_stats = []
    ∧ getCurrentIndex (hardResetAllData db k now DbErr.ok).1 = k
    ∧ hardResetAllData db k now DbErr.fail = (db, false) :=
  ⟨rfl, rfl, rfl, rfl, rfl, rfl, rfl⟩

/-- C10: recordCompletion never throws: every storage error (during the
duplicate check or the insert) is caught and surfaces as the return value
false with no row inserted, making a persistence failure observationally
identical to a duplicate acknowledgement. -/
theorem recordCompletion_never_throws (db : DB) (u : Int) (un fn : Option String)
    (d : String) :
    (∀ e, e ≠ RecErr.ok → recordCompletion db u un fn d e = (db, false))
    ∧ (hasCompletion db u d = true → recordCompletion db u un fn d RecErr.ok = (db, false))
    ∧ (∀ e, (recordCompletion db u un fn d e).2 = false →
        (recordCompletion db u un fn d e).1 = db) := by
  refine ⟨?_, ?_, ?_⟩
  · intro e he
    cases e with
    | ok => exact absurd rfl he
    | checkFail => rfl
    | insertFail => rfl
  · intro h
    exact recordCompletion_dup h
  · intro e
    cases e with
    | checkFail => intro _; rfl
    | insertFail => intro _; rfl
    | ok =>
      by_cases h : hasCompletion db u d
      · intro _
        rw [recordCompletion_dup h]
      · rw [recordCompletion_insert (by simpa using h)]
        simp

/-- Witness for C10 at a concrete database: a throwing duplicate check and a
duplicate acknowledgement are both reported as (unchanged, false). -/
theorem recordCompletion_never_throws_witness :
    recordCompletion dbDup 7 none none "2024-06-01" RecErr.checkFail = (dbDup, false)
    ∧ recordCompletion dbDup 7 none none "2024-06-01" RecErr.ok = (dbDup, false) := by
  have h := recordCompletion_never_throws dbDup 7 none none "2024-06-01"
  exact ⟨h.1 RecErr.checkFail (by decide), h.2.1 (by decide)⟩

/-- C2: recording the same (user, date) twice inserts exactly one row — the
first call returns true, the second returns false without error and without
inserting — and the at-most-one-row-per-pair invariant holds in every state
reachable by sequential operations from a deduplicated state. -/
theorem record_twice_idempotent (db : DB) (u : Int) (un fn : Option String) (d : String)
    (ops : List Op) (h0 : hasCompletion db u d = false) (hD : Dedup db) :
    (recordCompletion db u un fn d RecErr.ok).2 = true
    ∧ recordCompletion (recordCompletion db u un fn d RecErr.ok).1 u un fn d RecErr.ok
        = ((recordCompletion db u un fn d RecErr.ok).1, false)
    ∧ pairCount (recordCompletion db u un fn d RecErr.ok).1 u d = 1
    ∧ Dedup (applyOps db ops) := by
  rw [recordCompletion_insert h0]
  refine ⟨rfl, ?_, pairCount_after_insert h0, dedup_applyOps db ops hD⟩
  exact recordCompletion_dup (hasCompletion_after_insert db u un fn d)

/-- Witness for C2 at the empty database. -/
theorem record_twice_idempotent_witness :
    (recordCompletion emptyDB 7 none none "2024-06-01" RecErr.ok).2 = true
    ∧ pairCount (recordCompletion emptyDB 7 none none "2024-06-01" RecErr.ok).1
        7 "2024-06-01" = 1 := by
  have h := record_twice_idempotent emptyDB 7 none none "2024-06-01"
    [Op.skipCmd "2024-06-02"] rfl dedup_emptyDB
  exact ⟨h.1, h.2.2.1⟩

/-! ## C8: monotonicity of currentIndex outside resets -/

theorem getCurrentIndex_body_mono (db : DB) (t : String) (total : Int) (ok : Bool) :
    getCurrentIndex db ≤ getCurrentIndex (dailyReadingFireBody db t total ok).1 := by
  unfold dailyReadingFireBody
  by_cases h1 : total ≤ getCurrentIndex db
  · simp [h1]
  · cases ok with
    | false => simp [h1]
    | true =>
      simp only [h1, if_false, if_true]
      rcases getCurrentIndex_updateProgress_self db (getCurrentIndex db + 1) t with h | h
      · rw [h]; omega
      · rw [h]

theorem getCurrentIndex_applyOp_mono (db : DB) (op : Op) (h : IndexMonotoneOp op) :
    getCurrentIndex db ≤ getCurrentIndex (applyOp db op) := by
  cases op with
  | record u un fn d e =>
    show getCurrentIndex db ≤ getCurrentIndex (recordCompletion db u un fn d e).1
    rw [getCurrentIndex_of_progress_eq (recordCompletion_progress db u un fn d e)]
  | skipCmd t =>
    show getCurrentIndex db ≤ getCurrentIndex (skipCommand db t)
    unfold skipCommand
    rcases getCurrentIndex_updateProgress_self db (getCurrentIndex db + 1) t with h2 | h2
    · rw [h2]; omega
    · rw [h2]
  | setstart k t => cases h
  | deliveryFire cfg t total ok =>
    show getCurrentIndex db ≤ getCurrentIndex (dailyReadingFire db cfg t total ok).1
    unfold dailyReadingFire
    cases cfg.startDate with
    | none => exact getCurrentIndex_body_mono db t total ok
    | some sd =>
      by_cases h0 : strLt t sd = true
      · simp [h0]
      · simp only [h0, if_false]
        exact getCurrentIndex_body_mono db t total ok
  | dailyReport t mc =>
    show getCurrentIndex db ≤ getCurrentIndex (dailyReportFire db t mc)
    rw [getCurrentIndex_of_progress_eq (dailyReportFire_progress db t mc)]
  | monthlyReport c p =>
    show getCurrentIndex db ≤ getCurrentIndex (monthlyReportFire db c p).1
    rw [getCurrentIndex_of_progress_eq (monthlyReportFire_progress db c p)]
  | overallStats t tr ok =>
    show getCurrentIndex db ≤ getCurrentIndex (generateAndSendOverallStats db t tr ok)
    rw [getCurrentIndex_of_progress_eq (generateAndSendOverallStats_progress db t tr ok)]
  | softReset k now => cases h
  | hardReset k now e => cases h

/-- C8 (amended): currentIndex is monotonically non-decreasing under every
sequence of non-reset operations other than the setstart progress write, and
the skip command increases it by exactly one; the setstart command (also a
non-reset operation) can decrease it, refuting the unrestricted claim. -/
theorem currentIndex_monotone_without_setstart (db : DB) (ops : List Op) (today : String)
    (h : ∀ op ∈ ops, IndexMonotoneOp op) :
    getCurrentIndex db ≤ getCurrentIndex (applyOps db ops)
    ∧ (db.progress ≠ [] → getCurrentIndex (skipCommand db today) = getCurrentIndex db + 1) := by
  constructor
  · induction ops generalizing db with
    | nil => exact le_refl _
    | cons op rest ih =>
      have step := getCurrentIndex_applyOp_mono db op (h op (List.mem_cons_self op rest))
      have tail := ih (applyOp db op) (fun o ho => h o (List.mem_cons_of_mem op ho))
      exact le_trans step tail
  · intro hne
    unfold skipCommand
    exact getCurrentIndex_updateProgress db (getCurrentIndex db + 1) today hne

/-- Witness for C8 (amended) at a concrete database and operation list. -/
theorem currentIndex_monotone_without_setstart_witness :
    getCurrentIndex dbIdx5 ≤
      getCurrentIndex (applyOps dbIdx5 [Op.skipCmd "2025-01-02", Op.skipCmd "2025-01-03"])
    ∧ getCurrentIndex (skipCommand dbIdx5 "2025-01-02") = getCurrentIndex dbIdx5 + 1 := by
  have h := currentIndex_monotone_without_setstart dbIdx5
    [Op.skipCmd "2025-01-02", Op.skipCmd "2025-01-03"] "2025-01-02"
    (by intro op hop; fin_cases hop <;> trivial)
  exact ⟨h.1, h.2 (by decide)⟩

/-- Counterexample to C8 as stated: the setstart command writes currentIndex
outside any reset (bot.js:461-465 calls updateProgress with the user-chosen
index) and decreases it from 5 to 0. -/
theorem setstart_decreases_currentIndex :
    getCurrentIndex (applyOp dbIdx5 (Op.setstart 0 "2025-01-02")) = 0
    ∧ getCurrentIndex dbIdx5 = 5 := by decide

/-- C4: one delivery-job fire.  Before a configured campaign start date the
fire changes nothing; otherwise it runs the body, which no-ops when
nextIndex = currentIndex + 1 exceeds the total content count, and on
delivery success advances currentIndex to nextIndex, scheduling the one-shot
deferred overall-stats callback exactly when nextIndex equals the total
content count. -/
theorem deliveryFire_spec (db : DB) (cfg : SchedulerConfig) (today : String)
    (total : Int) (ok : Bool) :
    (∀ sd, cfg.startDate = some sd → strLt today sd = true →
      dailyReadingFire db cfg today total ok = (db, false))
    ∧ ((∀ sd, cfg.startDate = some sd → strLt today sd = false) →
      dailyReadingFire db cfg today total ok = dailyReadingFireBody db today total ok)
    ∧ (total < getCurrentIndex db + 1 → dailyReadingFireBody db today total ok = (db, false))
    ∧ (getCurrentIndex db + 1 ≤ total → db.progress ≠ [] →
        getCurrentIndex (dailyReadingFireBody db today total true).1 = getCurrentIndex db + 1
        ∧ ((dailyReadingFireBody db today total true).2 = true ↔
            getCurrentIndex db + 1 = total)) := by
  refine ⟨?_, ?_, ?_, ?_⟩
  · intro sd hsd hlt
    unfold dailyReadingFire
    rw [hsd]
    simp [hlt]
  · intro hgate
    unfold dailyReadingFire
    cases hcfg : cfg.startDate with
    | none => rfl
    | some sd => simp [hgate sd hcfg]
  · intro hgt
    unfold dailyReadingFireBody
    have h1 : total ≤ getCurrentIndex db := by omega
    simp [h1]
  · intro hle hne
    unfold dailyReadingFireBody
    have h1 : ¬ total ≤ getCurrentIndex db := by omega
    simp only [h1, if_false, if_true]
    refine ⟨getCurrentIndex_updateProgress db (getCurrentIndex db + 1) today hne, ?_⟩
    simp [beq_iff_eq]

/-- Witness for C4: the spec scenario.  With totalContentCount = 5 and
currentIndex = 4 the fire advances to 5 and schedules the overall-stats
callback; the next fire with currentIndex = 5 changes nothing. -/
theorem deliveryFire_spec_witness :
    getCurrentIndex (dailyReadingFireBody dbIdx4 "2025-01-02" 5 true).1 = 5
    ∧ (dailyReadingFireBody dbIdx4 "2025-01-02" 5 true).2 = true
    ∧ dailyReadingFireBody (dailyReadingFireBody dbIdx4 "2025-01-02" 5 true).1
        "2025-01-03" 5 true
      = ((dailyReadingFireBody dbIdx4 "2025-01-02" 5 true).1, false)
    ∧ dailyReadingFire dbIdx4 { startDate := some "2026-01-01" } "2025-01-02" 5 true
      = (dbIdx4, false) := by
  have h4 := (deliveryFire_spec dbIdx4 { startDate := none } "2025-01-02" 5 true).2.2.2
    (by decide) (by decide)
  have hidx : getCurrentIndex (dailyReadingFireBody dbIdx4 "2025-01-02" 5 true).1 = 5 := by
    rw [h4.1]; decide
  have hstop := (deliveryFire_spec (dailyReadingFireBody dbIdx4 "2025-01-02" 5 true).1
      { startDate := none } "2025-01-03" 5 true).2.2.1 (by rw [hidx]; omega)
  have hgate := (deliveryFire_spec dbIdx4 { startDate := some "2026-01-01" }
      "2025-01-02" 5 true).1 "2026-01-01" rfl (by decide)
  exact ⟨hidx, h4.2.mpr (by decide), hstop, hgate⟩

theorem calculateMonthlyStats_eq_agg (db : DB) (sd : String)
    (h : sessionStartOf db = some sd) (y m : Int) :
    calculateMonthlyStats db y m = monthlyAgg y m (monthlyRows db sd y m) := by
  unfold calculateMonthlyStats monthlyAgg monthlyRows effStart
  rw [h]

theorem toFixed1_zero : toFixed1 0 = 0 := by
  unfold toFixed1
  rw [show (0 : ℚ) * 10 + 1 / 2 = 1 / 2 by norm_num]
  rw [show ⌊(1 : ℚ) / 2⌋ = 0 by rw [Int.floor_eq_iff] <;> norm_num]
  norm_num

/-! ## Lemmas on the top-participants query -/

theorem topRows_count (cs : List CompletionRow) :
    ∀ p ∈ topRows cs, p.count = cs.countP (fun c => c.user_id == p.user_id) := by
  intro p hp
  obtain ⟨u, hu, hpu⟩ := List.mem_map.mp hp
  subst hpu
  exact (List.countP_eq_length_filter _ _).symm

theorem mem_topRows_of_mem_getTopParticipants {db : DB} {limit : Nat} {p : Participant}
    (hp : p ∈ getTopParticipants db limit) : p ∈ topRows (scopedCompletions db) :=
  List.mem_mergeSort.mp (List.take_subset limit _ hp)

/-- C1: a soft reset (resetProgress) appends a fresh session row.  Every
previously stored DailyStat/MonthlyStat/OverallStat row is preserved and
remains retrievable by direct lookup, while every session-scoped aggregate
query (getTopParticipants, getUserCompletionCount, getAllDailyStats,
calculateMonthlyStats) filters with date >= the new session start date and
therefore excludes completions and daily stats dated strictly before it. -/
theorem softReset_scoping (db : DB) (k : Int) (now : String) :
    (resetProgress db k now).daily_stats = db.daily_stats
    ∧ (resetProgress db k now).monthly_stats = db.monthly_stats
    ∧ (resetProgress db k now).overall_stats = db.overall_stats
    ∧ (∀ d, getDailyStats (resetProgress db k now) d = getDailyStats db d)
    ∧ (∀ y m, getMonthlyStats (resetProgress db k now) y m = getMonthlyStats db y m)
    ∧ getLatestOverallStats (resetProgress db k now) = getLatestOverallStats db
    ∧ sessionStartOf (resetProgress db k now) = some (firstField now)
    ∧ (∀ u, getUserCompletionCount (resetProgress db k now) u
        = db.completions.countP (fun c => c.user_id == u && strLe (firstField now) c.date))
    ∧ (∀ s ∈ getAllDailyStats (resetProgress db k now), strLe (firstField now) s.date = true)
    ∧ (∀ p ∈ getTopParticipants (resetProgress db k now) 5,
        p.count = db.completions.countP
          (fun c => c.user_id == p.user_id && strLe (firstField now) c.date))
    ∧ (∀ y m, calculateMonthlyStats (resetProgress db k now) y m
        = calculateMonthlyStats
            { resetProgress db k now with
              daily_stats := db.daily_stats.filter (fun s => strLe (firstField now) s.date) }
            y m) := by
  refine ⟨rfl, rfl, rfl, fun d => rfl, fun y m => rfl, rfl, rfl, fun u => rfl, ?_, ?_, ?_⟩
  · intro s hs
    have h9 : getAllDailyStats (resetProgress db k now)
        = ((db.daily_stats.filter (fun r => strLe (firstField now) r.date)).mergeSort
            (fun a b => strLe a.date b.date)) := rfl
    rw [h9, List.mem_mergeSort] at hs
    exact (List.mem_filter.mp hs).2
  · intro p hp
    have hcnt := topRows_count (scopedCompletions (resetProgress db k now)) p
      (mem_topRows_of_mem_getTopParticipants hp)
    rw [hcnt]
    have hsc : scopedCompletions (resetProgress db k now)
        = db.completions.filter (fun c => strLe (firstField now) c.date) := rfl
    rw [hsc, List.countP_filter]
  · intro y m
    rw [calculateMonthlyStats_eq_agg
          (resetProgress db k now) (firstField now) rfl y m,
        calculateMonthlyStats_eq_agg
          { resetProgress db k now with
            daily_stats := db.daily_stats.filter
              (fun s => strLe (firstField now) s.date) }
          (firstField now) rfl y m]
    congr 1
    show db.daily_stats.filter _
        = (db.daily_stats.filter (fun s => strLe (firstField now) s.date)).filter _
    rw [List.filter_filter]
    apply List.filter_congr
    intro x hx
    by_cases hpx : (strLe (effStart (firstField now) y m) x.date
        && strLt x.date (monthEndStr y m)) = true
    · rw [hpx]
      have hd0 : strLe (firstField now) x.date = true := by
        have h1 : strLe (effStart (firstField now) y m) x.date = true := by
          cases hh : strLe (effStart (firstField now) y m) x.date with
          | true => rfl
          | false => rw [hh] at hpx; simp at hpx
        have h2 : strLe (firstField now) (effStart (firstField now) y m) = true := by
          unfold effStart
          by_cases hlt : strLt (firstField now) (monthStartStr y m) = true
          · rw [if_pos hlt]; exact strLe_of_strLt hlt
          · rw [if_neg hlt]; exact strLe_refl _
        exact strLe_trans h2 h1
      rw [hd0]
      rfl
    · have hpx2 : (strLe (effStart (firstField now) y m) x.date
          && strLt x.date (monthEndStr y m)) = false := by
        simpa using hpx
      rw [hpx2]
      rfl

/-- Witness for C1 at a concrete database: the daily rows survive the soft
reset, the new session start is the date part of the new created_at, the
user count is session-scoped, and a surviving daily row is on/after the new
session start. -/
theorem softReset_scoping_witness :
    (resetProgress dbJune 0 "2024-06-01 12:00:00").daily_stats = dbJune.daily_stats
    ∧ sessionStartOf (resetProgress dbJune 0 "2024-06-01 12:00:00")
        = some (firstField "2024-06-01 12:00:00")
    ∧ getUserCompletionCount (resetProgress dbJune 0 "2024-06-01 12:00:00") 1
        = dbJune.completions.countP
            (fun c => c.user_id == 1 && strLe (firstField "2024-06-01 12:00:00") c.date)
    ∧ strLe (firstField "2024-06-01 12:00:00") "2024-06-02" = true := by
  have h := softReset_scoping dbJune 0 "2024-06-01 12:00:00"
  have hmem : (⟨"2024-06-02", 5, 0, 0⟩ : DailyStatRow)
      ∈ getAllDailyStats (resetProgress dbJune 0 "2024-06-01 12:00:00") := by
    rw [getAllDailyStats_eq (show sessionStartOf (resetProgress dbJune 0 "2024-06-01 12:00:00")
      = some "2024-06-01" from by decide)]
    rw [List.mem_mergeSort]
    decide
  have h9 := h.2.2.2.2.2.2.2.2.1 _ hmem
  exact ⟨h.1, h.2.2.2.2.2.2.1, h.2.2.2.2.2.2.2.1 1, h9⟩

/-- C5 (amended): calculateMonthlyStats returns null exactly when no
daily_stats row has a date in [max(monthStart, sessionStart), monthEnd);
otherwise readingDays is the row count, totalCompletions their
completedCount sum, and averageRate the mean of their completionRate values
rounded to one decimal place by toFixed(1). -/
theorem calculateMonthlyStats_spec (db : DB) (year month : Int) (sd : String)
    (h : sessionStartOf db = some sd) :
    (calculateMonthlyStats db year month = none ↔ monthlyRows db sd year month = [])
    ∧ (∀ r, calculateMonthlyStats db year month = some r →
        r.reading_days = (monthlyRows db sd year month).length
        ∧ r.total_completions
            = ((monthlyRows db sd year month).map (fun s => s.completed_count)).sum
        ∧ r.average_rate
            = toFixed1 (((monthlyRows db sd year month).map (fun s => s.completion_rate)).sum
                / ((monthlyRows db sd year month).length : ℚ))) := by
  rw [calculateMonthlyStats_eq_agg db sd h]
  unfold monthlyAgg
  constructor
  · by_cases h0 : (monthlyRows db sd year month).length = 0
    · simp [h0, List.length_eq_zero.mp h0]
    · simp only [h0, if_false]
      constructor
      · intro hc; cases hc
      · intro hc
        exact absurd (by rw [hc]; rfl) h0
  · intro r hr
    by_cases h0 : (monthlyRows db sd year month).length = 0
    · rw [if_pos h0] at hr; cases hr
    · rw [if_neg h0] at hr
      obtain rfl := (Option.some.injEq _ _).mp hr
      refine ⟨rfl, rfl, ?_⟩
      show (if _ = (0:ℚ) then (0:ℚ) else _) = _
      by_cases ha : ((monthlyRows db sd year month).map (fun s => s.completion_rate)).sum
          / ((monthlyRows db sd year month).length : ℚ) = 0
      · rw [if_pos ha, ha, toFixed1_zero]
      · rw [if_neg ha]

/-- Witness for C5 at a concrete database: July has no rows in range, so the
result is absent; June has three. -/
theorem calculateMonthlyStats_spec_witness :
    (calculateMonthlyStats dbJune 2024 7 = none ↔ monthlyRows dbJune "2024-06-01" 2024 7 = [])
    ∧ monthlyRows dbJune "2024-06-01" 2024 7 = []
    ∧ (∀ r, calculateMonthlyStats dbJune 2024 6 = some r →
        r.reading_days = (monthlyRows dbJune "2024-06-01" 2024 6).length) := by
  refine ⟨(calculateMonthlyStats_spec dbJune 2024 7 "2024-06-01" (by decide)).1,
    by decide, ?_⟩
  intro r hr
  exact ((calculateMonthlyStats_spec dbJune 2024 6 "2024-06-01" (by decide)).2 r hr).1

/-- Counterexample to C5 as stated: with daily completion rates 0, 0 and 1
the mean is 1/3, but the returned averageRate is the toFixed(1) rounding
3/10 — the claim that averageRate equals the mean fails. -/
theorem monthlyStats_average_not_mean :
    (calculateMonthlyStats dbJune 2024 6).map (fun r => (r.reading_days, r.average_rate))
      = some (3, 3 / 10)
    ∧ ((3 : ℚ) / 10 ≠ (0 + 0 + 1) / 3) := by
  have h := calculateMonthlyStats_eq_agg dbJune "2024-06-01" (by decide) 2024 6
  have hrows : monthlyRows dbJune "2024-06-01" 2024 6 = dbJune.daily_stats := by decide
  rw [h, hrows]
  refine ⟨?_, by norm_num⟩
  unfold monthlyAgg
  rw [if_neg (by decide)]
  have hv : ((dbJune.daily_stats.map (fun s => s.completion_rate)).sum
      / ((dbJune.daily_stats.length : ℕ) : ℚ)) = 1 / 3 := by
    show ((0 : ℚ) + (0 + (1 + 0))) / ((3 : ℕ) : ℚ) = 1 / 3
    norm_num
  rw [hv, if_neg (by norm_num)]
  have hf : toFixed1 (1 / 3) = 3 / 10 := by
    unfold toFixed1
    rw [show ⌊(1 : ℚ) / 3 * 10 + 1 / 2⌋ = 3 by rw [Int.floor_eq_iff] <;> norm_num]
    norm_num
  rw [hf]
  rw [Option.map_some']
  rw [Option.some.injEq, Prod.mk.injEq]
  exact ⟨by decide, rfl⟩

/-! ## C6: the daily report job -/

theorem getDailyStats_saveDailyStats (db : DB) (d : String) (tm cc : Int) (r : ℚ) :
    getDailyStats (saveDailyStats db d tm cc r) d
      = some { date := d, total_members := tm, completed_count := cc,
               completion_rate := r } := by
  unfold getDailyStats saveDailyStats
  rw [List.find?_append]
  have h1 : (db.daily_stats.filter (fun s => !(s.date == d))).find? (fun s => s.date == d)
      = none := by
    rw [List.find?_eq_none]
    intro x hx
    have h2 := (List.mem_filter.mp hx).2
    simp only [Bool.not_eq_true', beq_eq_false_iff_ne, ne_eq] at h2
    simp [h2]
  rw [h1]
  simp

/-- The daily report job always saves (upserts) a row for today whose
completedCount is the completion tally for today and whose rate is the
rounded percentage, 0 when totalMembers is 0 — also when the membership
lookup failed (mc = none), in which case totalMembers degrades to 0. -/
theorem dailyReportFire_saves (db : DB) (today : String) (mc : Option Int) :
    getDailyStats (dailyReportFire db today mc) today
      = some { date := today
               total_members := (mc.map (fun n => n - 1)).getD 0
               completed_count := (getCompletionCount db today : Int)
               completion_rate :=
                 if 0 < (mc.map (fun n => n - 1)).getD 0 then
                   toFixed1 (((getCompletionCount db today : Int) : ℚ)
                     / (((mc.map (fun n => n - 1)).getD 0 : Int) : ℚ) * 100)
                 else 0 } := by
  cases mc with
  | none => exact getDailyStats_saveDailyStats db today 0 _ _
  | some n => exact getDailyStats_saveDailyStats db today (n - 1) _ _

/-- C6 (amended): the daily report saves a DailyStat for today whose
completionRate is completedCount/totalMembers*100 rounded by toFixed(1) when
totalMembers > 0 and 0 when totalMembers is 0 (never undefined); a failed
membership lookup degrades to totalMembers = 0 and the row is still saved.
Scenario: membership 10 (11 chat members minus the bot) and 3 completions on
2024-06-01 yield completedCount 3 and completionRate 30.0. -/
theorem dailyReport_spec (db : DB) (today : String) (mc : Option Int) :
    getDailyStats (dailyReportFire db today mc) today
      = some { date := today
               total_members := (mc.map (fun n => n - 1)).getD 0
               completed_count := (getCompletionCount db today : Int)
               completion_rate :=
                 if 0 < (mc.map (fun n => n - 1)).getD 0 then
                   toFixed1 (((getCompletionCount db today : Int) : ℚ)
                     / (((mc.map (fun n => n - 1)).getD 0 : Int) : ℚ) * 100)
                 else 0 }
    ∧ ((mc.map (fun n => n - 1)).getD 0 = 0 →
        (getDailyStats (dailyReportFire db today mc) today).map
          (fun s => s.completion_rate) = some 0)
    ∧ (getDailyStats (dailyReportFire dbThree "2024-06-01" (some 11)) "2024-06-01").map
        (fun s => (s.completed_count, s.completion_rate)) = some (3, 30) := by
  refine ⟨dailyReportFire_saves db today mc, ?_, ?_⟩
  · intro h0
    rw [dailyReportFire_saves db today mc]
    rw [Option.map_some']
    rw [h0]
    norm_num
  · rw [dailyReportFire_saves dbThree "2024-06-01" (some 11)]
    rw [Option.map_some', Option.some.injEq, Prod.mk.injEq]
    have hcc : getCompletionCount dbThree "2024-06-01" = 3 := by decide
    refine ⟨by rw [hcc]; rfl, ?_⟩
    rw [if_pos (by decide)]
    have harg : (((getCompletionCount dbThree "2024-06-01" : Int) : ℚ)
        / ((((some (11 : Int)).map (fun n => n - 1)).getD 0 : Int) : ℚ) * 100) = 30 := by
      rw [hcc]
      norm_num
    rw [harg]
    unfold toFixed1
    rw [show ⌊(30 : ℚ) * 10 + 1 / 2⌋ = 300 by rw [Int.floor_eq_iff] <;> norm_num]
    norm_num

/-- Witness for C6: with a failed membership lookup the job still saves a
row for today, with a zero rate. -/
theorem dailyReport_spec_witness :
    (getDailyStats (dailyReportFire dbThree "2024-06-02" none) "2024-06-02").map
        (fun s => s.completion_rate) = some 0 :=
  (dailyReport_spec dbThree "2024-06-02" none).2.1 rfl

/-- Counterexample to C6 as stated: with 3 members and 1 completion the
saved completionRate is the toFixed(1) rounding 33.3, not the exact
completedCount/totalMembers*100 = 100/3 the claim asserts. -/
theorem dailyReport_rate_is_rounded :
    (getDailyStats (dailyReportFire dbOne "2024-06-01" (some 4)) "2024-06-01").map
        (fun s => (s.total_members, s.completed_count, s.completion_rate))
      = some (3, 1, 333 / 10)
    ∧ ((333 : ℚ) / 10 ≠ (1 : ℚ) / 3 * 100) := by
  refine ⟨?_, by norm_num⟩
  rw [dailyReportFire_saves dbOne "2024-06-01" (some 4)]
  rw [Option.map_some', Option.some.injEq, Prod.mk.injEq]
  have hcc : getCompletionCount dbOne "2024-06-01" = 1 := by decide
  refine ⟨by decide, ?_⟩
  rw [Prod.mk.injEq]
  refine ⟨by rw [hcc]; rfl, ?_⟩
  rw [if_pos (by decide)]
  have harg : (((getCompletionCount dbOne "2024-06-01" : Int) : ℚ)
      / ((((some (4 : Int)).map (fun n => n - 1)).getD 0 : Int) : ℚ) * 100) = 100 / 3 := by
    rw [hcc]
    norm_num
  rw [harg]
  unfold toFixed1
  rw [show ⌊(100 : ℚ) / 3 * 10 + 1 / 2⌋ = 333 by rw [Int.floor_eq_iff] <;> norm_num]
  norm_num

/-! ## C7: the overall statistics -/

/-- What one successful run of generateAndSendOverallStats appends: the
session-scoped daily row count, their completed_count sum, the rounded
unweighted mean of their rates, and the top five participants. -/
theorem generateOverall_spec (db : DB) (p : ProgressRow) (ts : String)
    (hp : getProgress db = some p) (hts : p.created_at = some ts)
    (today : String) (tr : Int) :
    (generateAndSendOverallStats db today tr true).overall_stats
      = db.overall_stats ++
        [{ start_date := ts, end_date := today,
           total_days :=
             (db.daily_stats.filter (fun s => strLe (firstField ts) s.date)).length,
           total_readings := tr,
           total_completions :=
             ((db.daily_stats.filter (fun s => strLe (firstField ts) s.date)).map
               (fun s => s.completed_count)).sum,
           average_rate :=
             if 0 < (db.daily_stats.filter (fun s => strLe (firstField ts) s.date)).length
             then
               toFixed1
                 (((db.daily_stats.filter (fun s => strLe (firstField ts) s.date)).map
                     (fun s => s.completion_rate)).sum
                   / ((db.daily_stats.filter
                        (fun s => strLe (firstField ts) s.date)).length : ℚ))
             else 0,
           top_participants := getTopParticipants db 5 }] := by
  have hss := sessionStartOf_eq hp hts
  have hall := getAllDailyStats_eq hss
  have hperm : (getAllDailyStats db).Perm
      (db.daily_stats.filter (fun s => strLe (firstField ts) s.date)) := by
    rw [hall]
    exact List.mergeSort_perm _ _
  have hlen := hperm.length_eq
  have hsumc := (hperm.map (fun s => s.completed_count)).sum_eq
  have hsumr := (hperm.map (fun s => s.completion_rate)).sum_eq
  unfold generateAndSendOverallStats
  rw [if_neg (by decide)]
  rw [hp]
  dsimp only
  rw [hts]
  rw [hlen, hsumc, hsumr]
  rfl

theorem ble_count_trans (a b c : Participant)
    (h1 : Nat.ble b.count a.count = true) (h2 : Nat.ble c.count b.count = true) :
    Nat.ble c.count a.count = true :=
  Nat.ble_eq_true_of_le (le_trans (Nat.le_of_ble_eq_true h2) (Nat.le_of_ble_eq_true h1))

theorem ble_count_total (a b : Participant) :
    (Nat.ble b.count a.count || Nat.ble a.count b.count) = true := by
  rcases Nat.le_total b.count a.count with h | h
  · simp [Nat.ble_eq_true_of_le h]
  · simp [Nat.ble_eq_true_of_le h]

theorem getTopParticipants_sorted (db : DB) (limit : Nat) :
    List.Pairwise (fun a b : Participant => b.count ≤ a.count)
      (getTopParticipants db limit) := by
  have hs := @List.sorted_mergeSort Participant (fun a b => Nat.ble b.count a.count)
    ble_count_trans ble_count_total (topRows (scopedCompletions db))
  have hsub := List.Pairwise.sublist (List.take_sublist limit _) hs
  exact hsub.imp (fun h => Nat.le_of_ble_eq_true h)

theorem getTopParticipants_length (db : DB) (limit : Nat) :
    (getTopParticipants db limit).length ≤ limit := by
  unfold getTopParticipants
  rw [List.length_take]
  exact min_le_left _ _

theorem getTopParticipants_count (db : DB) (limit : Nat) :
    ∀ q ∈ getTopParticipants db limit,
      q.count = (scopedCompletions db).countP (fun c => c.user_id == q.user_id) :=
  fun q hq => topRows_count _ q (mem_topRows_of_mem_getTopParticipants hq)

theorem getTopParticipants_complete (db : DB) (limit : Nat) (u : Int)
    (hu : ∃ c ∈ scopedCompletions db, c.user_id = u)
    (hnot : ∀ q ∈ getTopParticipants db limit, q.user_id ≠ u) :
    ∀ q ∈ getTopParticipants db limit,
      (scopedCompletions db).countP (fun c => c.user_id == u) ≤ q.count := by
  obtain ⟨c, hc, hcu⟩ := hu
  have huid : u ∈ ((scopedCompletions db).map (fun c => c.user_id)).dedup :=
    List.mem_dedup.mpr (List.mem_map.mpr ⟨c, hc, hcu⟩)
  have hr : topRowFor (scopedCompletions db) u ∈ topRows (scopedCompletions db) :=
    List.mem_map.mpr ⟨u, huid, rfl⟩
  have hms : topRowFor (scopedCompletions db) u ∈
      (topRows (scopedCompletions db)).mergeSort
        (fun a b => Nat.ble b.count a.count) :=
    List.mem_mergeSort.mpr hr
  rw [← List.take_append_drop limit ((topRows (scopedCompletions db)).mergeSort
    (fun a b => Nat.ble b.count a.count))] at hms
  rcases List.mem_append.mp hms with htake | hdrop
  · exact absurd rfl (hnot _ htake)
  · intro q hq
    have hsorted : List.Sorted (fun a b : Participant => Nat.ble b.count a.count = true)
        ((topRows (scopedCompletions db)).mergeSort
          (fun a b => Nat.ble b.count a.count)) :=
      List.sorted_mergeSort ble_count_trans ble_count_total _
    have hrel := List.Sorted.rel_of_mem_take_of_mem_drop hsorted hq hdrop
    have hle := Nat.le_of_ble_eq_true hrel
    exact le_trans (le_of_eq (List.countP_eq_length_filter _ _)) hle

/-- C7 (amended): one successful overall-stats run appends exactly one
OverallStat row — never modifying existing rows — whose totalDays is the
session-scoped daily row count, whose totalCompletions is their row-wise
completedCount sum, whose averageRate is the unweighted mean of the per-day
rates rounded by toFixed(1), and whose topParticipants are the top five by
session-scoped completion count: at most five, sorted by count descending,
each count correct, and no omitted user outranks a listed one. -/
theorem overallStats_spec (db : DB) (p : ProgressRow) (ts today : String) (tr : Int)
    (hp : getProgress db = some p) (hts : p.created_at = some ts) :
    (generateAndSendOverallStats db today tr true).overall_stats
      = db.overall_stats ++
        [{ start_date := ts, end_date := today,
           total_days :=
             (db.daily_stats.filter (fun s => strLe (firstField ts) s.date)).length,
           total_readings := tr,
           total_completions :=
             ((db.daily_stats.filter (fun s => strLe (firstField ts) s.date)).map
               (fun s => s.completed_count)).sum,
           average_rate :=
             if 0 < (db.daily_stats.filter (fun s => strLe (firstField ts) s.date)).length
             then
               toFixed1
                 (((db.daily_stats.filter (fun s => strLe (firstField ts) s.date)).map
                     (fun s => s.completion_rate)).sum
                   / ((db.daily_stats.filter
                        (fun s => strLe (firstField ts) s.date)).length : ℚ))
             else 0,
           top_participants := getTopParticipants db 5 }]
    ∧ (getTopParticipants db 5).length ≤ 5
    ∧ List.Pairwise (fun a b : Participant => b.count ≤ a.count) (getTopParticipants db 5)
    ∧ (∀ q ∈ getTopParticipants db 5,
        q.count = (scopedCompletions db).countP (fun c => c.user_id == q.user_id))
    ∧ (∀ u, (∃ c ∈ scopedCompletions db, c.user_id = u) →
        (∀ q ∈ getTopParticipants db 5, q.user_id ≠ u) →
        ∀ q ∈ getTopParticipants db 5,
          (scopedCompletions db).countP (fun c => c.user_id == u) ≤ q.count) :=
  ⟨generateOverall_spec db p ts hp hts today tr, getTopParticipants_length db 5,
   getTopParticipants_sorted db 5, getTopParticipants_count db 5,
   fun u hu hnot => getTopParticipants_complete db 5 u hu hnot⟩

/-- Witness for C7 at a concrete database: the run appends exactly one row
and the top list has at most five entries. -/
theorem overallStats_spec_witness :
    (getTopParticipants dbJune 5).length ≤ 5
    ∧ ((generateAndSendOverallStats dbJune "2024-06-10" 7 true).overall_stats).length
        = dbJune.overall_stats.length + 1 := by
  have h := overallStats_spec dbJune
    { current_index := 3, last_sent_date := some "2024-06-04",
      created_at := some "2024-06-01 00:00:00" }
    "2024-06-01 00:00:00" "2024-06-10" 7 rfl rfl
  refine ⟨h.2.1, ?_⟩
  rw [h.1]
  simp

/-- Counterexample to C7 as stated: with session-scoped daily rates 0, 0 and
1 the unweighted mean is 1/3, but the appended OverallStat carries the
toFixed(1) rounding 3/10 — averageRate is not the exact mean. -/
theorem overall_average_is_rounded :
    ((generateAndSendOverallStats dbJune "2024-06-10" 7 true).overall_stats.map
        (fun r => r.average_rate)) = [3 / 10]
    ∧ ((3 : ℚ) / 10 ≠ (0 + 0 + 1) / 3) := by
  refine ⟨?_, by norm_num⟩
  rw [generateOverall_spec dbJune
    { current_index := 3, last_sent_date := some "2024-06-04",
      created_at := some "2024-06-01 00:00:00" }
    "2024-06-01 00:00:00" rfl rfl "2024-06-10" 7]
  have hfil : dbJune.daily_stats.filter
      (fun s => strLe (firstField "2024-06-01 00:00:00") s.date) = dbJune.daily_stats := by
    decide
  rw [hfil]
  rw [show dbJune.overall_stats = [] from rfl, List.nil_append]
  rw [List.map_cons, List.map_nil]
  rw [if_pos (by decide)]
  have hv : ((dbJune.daily_stats.map (fun s => s.completion_rate)).sum
      / (dbJune.daily_stats.length : ℚ)) = 1 / 3 := by
    show ((0 : ℚ) + (0 + (1 + 0))) / ((3 : ℕ) : ℚ) = 1 / 3
    norm_num
  rw [hv]
  rw [show toFixed1 (1 / 3) = 3 / 10 from by
    unfold toFixed1
    rw [show ⌊(1 : ℚ) / 3 * 10 + 1 / 2⌋ = 3 from by rw [Int.floor_eq_iff] <;> norm_num]
    norm_num]

/-! ## C9: month-end detection of the monthly report job -/

theorem jsDaysInMonth_ge28 (y m : Int) : 28 ≤ jsDaysInMonth y m := by
  unfold jsDaysInMonth
  split_ifs <;> omega

theorem jsDaysInMonth_le31 (y m : Int) : jsDaysInMonth y m ≤ 31 := by
  unfold jsDaysInMonth
  split_ifs <;> omega

theorem jsTomorrow_day_eq_one_iff (d : SimpleDate) (h1 : 1 ≤ d.day)
    (h2 : d.day ≤ jsDaysInMonth d.year d.month) :
    ((jsTomorrow d).day = 1 ↔ d.day = jsDaysInMonth d.year d.month) := by
  unfold jsTomorrow
  by_cases hlt : d.day < jsDaysInMonth d.year d.month
  · rw [if_pos hlt]
    dsimp only
    omega
  · rw [if_neg hlt]
    by_cases hm : d.month = 12
    · rw [if_pos hm]
      dsimp only
      omega
    · rw [if_neg hm]
      dsimp only
      omega

/-- C9 (amended): when the process timezone agrees with the configured one
(cfgToday = procToday = d, as the deployment pins), a candidate fire runs
the report body exactly when d is the last day of its month, equivalently
when tomorrow is the 1st; and a fire that does not run the body changes no
state.  The body itself evaluates "tomorrow" with the process-local clock,
which is what the counterexample below separates from the configured
timezone. -/
theorem monthlyReport_fires_on_month_end (db : DB) (d cfgT procT : SimpleDate)
    (h1 : 1 ≤ d.day) (h2 : d.day ≤ jsDaysInMonth d.year d.month) :
    ((monthlyReportFire db d d).2 = true ↔ d.day = jsDaysInMonth d.year d.month)
    ∧ ((monthlyReportFire db cfgT procT).2 = false →
        (monthlyReportFire db cfgT procT).1 = db) := by
  constructor
  · unfold monthlyReportFire
    by_cases hgate : 28 ≤ d.day ∧ d.day ≤ 31
    · rw [if_pos hgate]
      by_cases htom : (jsTomorrow d).day = 1
      · rw [if_pos htom]
        simp [(jsTomorrow_day_eq_one_iff d h1 h2).mp htom]
      · rw [if_neg htom]
        have hne : d.day ≠ jsDaysInMonth d.year d.month :=
          fun he => htom ((jsTomorrow_day_eq_one_iff d h1 h2).mpr he)
        simp [hne]
    · rw [if_neg hgate]
      have hne : d.day ≠ jsDaysInMonth d.year d.month := by
        intro he
        exact hgate ⟨by rw [he]; exact jsDaysInMonth_ge28 d.year d.month,
          by have := jsDaysInMonth_le31 d.year d.month; omega⟩
      simp [hne]
  · intro hfalse
    unfold monthlyReportFire at hfalse ⊢
    by_cases hgate : 28 ≤ cfgT.day ∧ cfgT.day ≤ 31
    · rw [if_pos hgate] at hfalse ⊢
      by_cases htom : (jsTomorrow procT).day = 1
      · rw [if_pos htom] at hfalse
        simp at hfalse
      · rw [if_neg htom]
    · rw [if_neg hgate]

/-- Witness for C9 (amended): February 29 of the leap year 2024 fires the
body; February 28 of 2024 does not. -/
theorem monthlyReport_fires_on_month_end_witness :
    (monthlyReportFire emptyDB ⟨2024, 2, 29⟩ ⟨2024, 2, 29⟩).2 = true
    ∧ (monthlyReportFire emptyDB ⟨2024, 2, 28⟩ ⟨2024, 2, 28⟩).2 = false := by
  have h29 := (monthlyReport_fires_on_month_end emptyDB ⟨2024, 2, 29⟩ ⟨2024, 2, 29⟩
    ⟨2024, 2, 29⟩ (by decide) (by decide)).1
  exact ⟨h29.mpr (by decide), by decide⟩

/-- Counterexample to C9 as stated: the body re-checks "tomorrow" with
`new Date()`, i.e. in the timezone of the process, not the configured one.
At 23:55 of January 31 in a configured UTC timezone, a process clock ten
hours ahead (e.g. the image-pinned Australia/Brisbane) already shows
February 1: tomorrow in the configured timezone is the 1st, so the claim
demands the body to run, yet the fire does nothing. -/
theorem monthlyReport_checks_process_timezone :
    (monthlyReportFire emptyDB ⟨2024, 1, 31⟩ ⟨2024, 2, 1⟩).2 = false
    ∧ (jsTomorrow ⟨2024, 1, 31⟩).day = 1 := by decide

end ReadBible
